import Mathlib

/-!
Shallow embedding of the tunnl.gg server core (Go) and proofs about it.

Modelling conventions:
- Go strings are modelled as `List Char` (`GoStr`); `strings.Split(s, "-")`
  becomes a structural split on the character `'-'`; Go's byte-length `len(s)`
  is `utf8Len` (the sum of the UTF-8 sizes of the characters).
- Go maps are modelled as association lists without duplicate keys
  (`mapFind` / `mapSet` / `mapErase`); a missing key reads as the zero value,
  exactly as in Go.
- `time.Time` instants and `time.Duration` spans are rationals measured in
  seconds; the Go zero time is modelled as `0`.  `float64` token counts are
  rationals (all arithmetic the claims exercise is exact in both systems).
- Methods that mutate state through a pointer become functions returning the
  updated value; calls with side effects on the outside world (closing an SSH
  handle) additionally return a list of `Effect`s.
-/

namespace Tunnl

/-- Go strings, modelled as lists of characters. -/
abbrev GoStr := List Char

/-- Association-list lookup, modelling a Go map read (`v, ok := m[k]`). -/
def mapFind {K V : Type} [DecidableEq K] : List (K × V) → K → Option V
  | [], _ => none
  | (k', v) :: rest, k => if k' = k then some v else mapFind rest k

/-- Go map read with the type's zero value for missing keys (`m[k]`). -/
def mapFindD {K V : Type} [DecidableEq K] (m : List (K × V)) (k : K) (d : V) : V :=
  (mapFind m k).getD d

/-- Go map write `m[k] = v`: replaces any existing binding of `k`. -/
def mapSet {K V : Type} [DecidableEq K] (m : List (K × V)) (k : K) (v : V) :
    List (K × V) :=
  (k, v) :: m.filter (fun p => p.1 ≠ k)

/-- Go map `delete(m, k)`. -/
def mapErase {K V : Type} [DecidableEq K] (m : List (K × V)) (k : K) :
    List (K × V) :=
  m.filter (fun p => p.1 ≠ k)

/-- Keys of the map. -/
def mapKeys {K V : Type} (m : List (K × V)) : List K := m.map Prod.fst

theorem mapFind_eq_none_of_fresh {K V : Type} [DecidableEq K]
    (m : List (K × V)) (k : K) (h : k ∉ mapKeys m) : mapFind m k = none := by
  induction m with
  | nil => rfl
  | cons p rest ih =>
    simp only [mapKeys, List.map_cons, List.mem_cons] at h
    push_neg at h
    simp only [mapFind]
    rw [if_neg (fun he => h.1 he.symm)]
    exact ih (by simpa [mapKeys] using h.2)

theorem filter_eq_self_of_fresh {K V : Type} [DecidableEq K]
    (m : List (K × V)) (k : K) (h : k ∉ mapKeys m) :
    m.filter (fun p => p.1 ≠ k) = m := by
  rw [List.filter_eq_self]
  intro p hp
  simp only [decide_eq_true_eq]
  intro he
  exact h (by simpa [mapKeys, he] using List.mem_map_of_mem Prod.fst hp)

theorem mapSet_of_fresh {K V : Type} [DecidableEq K]
    (m : List (K × V)) (k : K) (v : V) (h : k ∉ mapKeys m) :
    mapSet m k v = (k, v) :: m := by
  unfold mapSet
  rw [filter_eq_self_of_fresh m k h]

/-! ### Configuration constants (internal/config/config.go) -/

namespace config

def MaxTunnelsPerIP : Nat := 3
def MaxTotalTunnels : Nat := 1000
def RequestsPerSecond : ℚ := 10
def BurstSize : Nat := 20
/-- 128 MiB request-body cap, in bytes (Go int64). -/
def MaxRequestBodySize : Int := 128 * 1024 * 1024
def MaxConnectionsPerMinute : Nat := 10
/-- Sliding window for the connection rate, in seconds (1 minute). -/
def ConnectionRateWindow : ℚ := 60
/-- How long an abusive IP stays blocked, in seconds (1 hour). -/
def BlockDuration : ℚ := 3600
def RateLimitViolationsMax : Nat := 10

end config

/-! ### Token bucket (internal/tunnel/ratelimiter.go) -/

/-- Token-bucket rate limiter.  Go stores `tokens` as `float64`; we use `ℚ`
(the operations the claims exercise are exact in both representations). -/
structure RateLimiter where
  tokens : ℚ
  maxTokens : ℚ
  refillRate : ℚ
  lastRefill : ℚ
  deriving Repr, DecidableEq

/-- Constructor `NewRateLimiter(rate, burst)`; `now` is the construction
instant (`time.Now()`). -/
def NewRateLimiter (rate : ℚ) (burst : Nat) (now : ℚ) : RateLimiter :=
  { tokens := burst
    maxTokens := burst
    refillRate := rate
    lastRefill := now }

/-- Method `Allow()`: refill by elapsed time, clamp at the maximum, then
consume one token if at least one is available. -/
def RateLimiter.Allow (r : RateLimiter) (now : ℚ) : Bool × RateLimiter :=
  let elapsed := now - r.lastRefill
  let t := r.tokens + elapsed * r.refillRate
  let t := if t > r.maxTokens then r.maxTokens else t
  if t ≥ 1 then
    (true, { r with tokens := t - 1, lastRefill := now })
  else
    (false, { r with tokens := t, lastRefill := now })

/-- Iterated `Allow()` calls, all at instant `now`, listing the outcomes. -/
def runAllow : Nat → RateLimiter → ℚ → List Bool × RateLimiter
  | 0, r, _ => ([], r)
  | n + 1, r, now =>
    let p := r.Allow now
    let q := runAllow n p.2 now
    (p.1 :: q.1, q.2)

theorem runAllow_add (m n : Nat) (r : RateLimiter) (now : ℚ) :
    runAllow (m + n) r now =
      ((runAllow m r now).1 ++ (runAllow n (runAllow m r now).2 now).1,
        (runAllow n (runAllow m r now).2 now).2) := by
  induction m generalizing r with
  | zero => simp [runAllow]
  | succ k ih =>
    have : k + 1 + n = (k + n) + 1 := by omega
    rw [this]
    simp only [runAllow]
    rw [ih]
    simp

theorem allow_zero_elapsed (tk mx rt t : ℚ) (hmx : tk ≤ mx) (h1 : 1 ≤ tk) :
    RateLimiter.Allow ⟨tk, mx, rt, t⟩ t = (true, ⟨tk - 1, mx, rt, t⟩) := by
  have hc : ¬ (tk > mx) := not_lt.mpr hmx
  simp only [RateLimiter.Allow, sub_self, zero_mul, add_zero]
  rw [if_neg hc, if_pos (show tk ≥ 1 from h1)]

theorem allow_zero_elapsed_deny (tk mx rt t : ℚ) (hmx : tk ≤ mx) (h1 : tk < 1) :
    RateLimiter.Allow ⟨tk, mx, rt, t⟩ t = (false, ⟨tk, mx, rt, t⟩) := by
  have hc : ¬ (tk > mx) := not_lt.mpr hmx
  simp only [RateLimiter.Allow, sub_self, zero_mul, add_zero]
  rw [if_neg hc, if_neg (show ¬ tk ≥ 1 from not_le.mpr h1)]

theorem runAllow_of_enough (n : Nat) (tk rt t : ℚ)
    (hn : (n : ℚ) ≤ tk) (hmx : tk ≤ 20) :
    runAllow n ⟨tk, 20, rt, t⟩ t =
      (List.replicate n true, ⟨tk - n, 20, rt, t⟩) := by
  induction n generalizing tk with
  | zero => simp [runAllow]
  | succ k ih =>
    have h1 : 1 ≤ tk := by
      have : ((k : ℚ) + 1) ≤ tk := by push_cast at hn ⊢; linarith
      linarith [Nat.cast_nonneg (α := ℚ) k]
    simp only [runAllow, allow_zero_elapsed tk 20 rt t hmx h1]
    have hk : (k : ℚ) ≤ tk - 1 := by push_cast at hn ⊢; linarith
    rw [ih (tk - 1) hk (by linarith)]
    have hcast : tk - 1 - (k : ℚ) = tk - ((k : Nat) + 1 : Nat) := by push_cast; ring
    simp [List.replicate_succ, hcast]

theorem runAllow_one_deny (rt t : ℚ) :
    runAllow 1 ⟨0, 20, rt, t⟩ t = ([false], ⟨0, 20, rt, t⟩) := by
  simp only [runAllow, allow_zero_elapsed_deny 0 20 rt t (by norm_num) (by norm_num)]

theorem newRateLimiter_default (t0 : ℚ) :
    NewRateLimiter config.RequestsPerSecond config.BurstSize t0 = ⟨20, 20, 10, t0⟩ := by
  simp [NewRateLimiter, config.RequestsPerSecond, config.BurstSize]

/-- C3: for a fresh token bucket with refill rate 10 and burst 20, twenty-one
consecutive `Allow()` calls with zero elapsed time yield twenty `true`s and
then a `false`, and after every call the token count stays in `[0, 20]`. -/
theorem claim_C3_token_bucket (t0 : ℚ) :
    (runAllow 21 (NewRateLimiter config.RequestsPerSecond config.BurstSize t0) t0).1
      = List.replicate 20 true ++ [false] ∧
    ∀ k, k ≤ 21 →
      0 ≤ (runAllow k (NewRateLimiter config.RequestsPerSecond config.BurstSize t0) t0).2.tokens ∧
      (runAllow k (NewRateLimiter config.RequestsPerSecond config.BurstSize t0) t0).2.tokens ≤ 20 := by
  rw [newRateLimiter_default t0]
  have h20 : runAllow 20 ⟨20, 20, 10, t0⟩ t0
      = (List.replicate 20 true, ⟨0, 20, 10, t0⟩) := by
    have h := runAllow_of_enough 20 20 10 t0 (by norm_num) (by norm_num)
    norm_num at h
    exact h
  constructor
  · have h21 := runAllow_add 20 1 ⟨20, 20, 10, t0⟩ t0
    rw [h20] at h21
    simp only [runAllow_one_deny] at h21
    rw [show (21 : Nat) = 20 + 1 from rfl, h21]
  · intro k hk
    rcases Nat.lt_or_ge k 21 with hlt | hge
    · have hk20 : k ≤ 20 := by omega
      have h := runAllow_of_enough k 20 10 t0 (by exact_mod_cast hk20) (by norm_num)
      rw [h]
      constructor
      · simp only []
        have : (k : ℚ) ≤ 20 := by exact_mod_cast hk20
        linarith
      · simp only []
        have : (0 : ℚ) ≤ (k : ℚ) := Nat.cast_nonneg k
        linarith
    · have hk21 : k = 21 := by omega
      subst hk21
      have h21 := runAllow_add 20 1 ⟨20, 20, 10, t0⟩ t0
      rw [h20] at h21
      simp only [runAllow_one_deny] at h21
      rw [show (21 : Nat) = 20 + 1 from rfl, h21]
      norm_num

theorem claim_C3_token_bucket_witness :
    (runAllow 21 (NewRateLimiter config.RequestsPerSecond config.BurstSize 0) 0).1
      = List.replicate 20 true ++ [false] ∧
    0 ≤ (runAllow 5 (NewRateLimiter config.RequestsPerSecond config.BurstSize 0) 0).2.tokens :=
  ⟨(claim_C3_token_bucket 0).1, ((claim_C3_token_bucket 0).2 5 (by norm_num)).1⟩

/-! ### Abuse tracker (internal/server/abuse.go) -/

/-- Abuse tracker state.  The `onBlock` callback and the cleanup goroutine are
outside the claims' scope; `totalBlocked` / `totalRateLimited` are the atomic
counters. -/
structure AbuseTracker where
  connectionTimes : List (GoStr × List ℚ)
  blockedIPs : List (GoStr × ℚ)
  violationCounts : List (GoStr × Nat)
  totalBlocked : Nat
  totalRateLimited : Nat
  deriving Repr, DecidableEq

/-- Constructor `NewAbuseTracker()`: all maps empty, counters zero. -/
def NewAbuseTracker : AbuseTracker := ⟨[], [], [], 0, 0⟩

/-- Method `GetBlockExpiry(ip)`: the zero instant unless the block map holds an
entry that `time.Now().After(expiry)` does not reject. -/
def AbuseTracker.GetBlockExpiry (tr : AbuseTracker) (ip : GoStr) (now : ℚ) : ℚ :=
  match mapFind tr.blockedIPs ip with
  | none => 0
  | some expiry => if now > expiry then 0 else expiry

/-- Method `BlockIP(ip)`: set the block-until instant and bump `totalBlocked`
(the asynchronous `onBlock` callback is not modelled here). -/
def AbuseTracker.BlockIP (tr : AbuseTracker) (ip : GoStr) (now : ℚ) : AbuseTracker :=
  { tr with
    blockedIPs := mapSet tr.blockedIPs ip (now + config.BlockDuration)
    totalBlocked := tr.totalBlocked + 1 }

/-- Method `CheckConnectionRate(ip)`: prune the window, deny and count a
violation when full (auto-blocking at the violation cap), otherwise record the
connection. -/
def AbuseTracker.CheckConnectionRate (tr : AbuseTracker) (ip : GoStr) (now : ℚ) :
    Bool × AbuseTracker :=
  let windowStart := now - config.ConnectionRateWindow
  let times := mapFindD tr.connectionTimes ip []
  let validTimes := times.filter (fun t => windowStart < t)
  if validTimes.length ≥ config.MaxConnectionsPerMinute then
    let v := mapFindD tr.violationCounts ip 0 + 1
    if v ≥ config.RateLimitViolationsMax then
      (false, { tr with
        blockedIPs := mapSet tr.blockedIPs ip (now + config.BlockDuration)
        violationCounts := mapErase tr.violationCounts ip
        totalRateLimited := tr.totalRateLimited + 1
        totalBlocked := tr.totalBlocked + 1 })
    else
      (false, { tr with
        violationCounts := mapSet tr.violationCounts ip v
        totalRateLimited := tr.totalRateLimited + 1 })
  else
    (true, { tr with
      connectionTimes := mapSet tr.connectionTimes ip (validTimes ++ [now]) })

/-- Iterated `CheckConnectionRate(ip)` calls, all at instant `now`. -/
def runRate : Nat → AbuseTracker → GoStr → ℚ → List Bool × AbuseTracker
  | 0, tr, _, _ => ([], tr)
  | n + 1, tr, ip, now =>
    let p := tr.CheckConnectionRate ip now
    let q := runRate n p.2 ip now
    (p.1 :: q.1, q.2)

theorem runRate_add (m n : Nat) (tr : AbuseTracker) (ip : GoStr) (now : ℚ) :
    runRate (m + n) tr ip now =
      ((runRate m tr ip now).1 ++ (runRate n (runRate m tr ip now).2 ip now).1,
        (runRate n (runRate m tr ip now).2 ip now).2) := by
  induction m generalizing tr with
  | zero => simp [runRate]
  | succ k ih =>
    have : k + 1 + n = (k + n) + 1 := by omega
    rw [this]
    simp only [runRate]
    rw [ih]
    simp

theorem mapFind_nil {K V : Type} [DecidableEq K] (k : K) :
    mapFind ([] : List (K × V)) k = none := rfl

theorem mapFind_singleton {V : Type} (k : GoStr) (v : V) :
    mapFind [(k, v)] k = some v := by
  simp [mapFind]

theorem mapSet_singleton {V : Type} (k : GoStr) (v w : V) :
    mapSet [(k, v)] k w = [(k, w)] := by
  simp [mapSet, List.filter]

theorem mapErase_singleton {V : Type} (k : GoStr) (v : V) :
    mapErase [(k, v)] k = [] := by
  simp [mapErase, List.filter]

theorem filter_replicate_window (n : Nat) (now : ℚ) :
    (List.replicate n now).filter (fun t => now - config.ConnectionRateWindow < t)
      = List.replicate n now := by
  rw [List.filter_eq_self]
  intro a ha
  rw [List.eq_of_mem_replicate ha]
  simp only [decide_eq_true_eq]
  have : (0 : ℚ) < config.ConnectionRateWindow := by norm_num [config.ConnectionRateWindow]
  linarith

/-- Tracker state after `k` recorded connections from `ip` at instant `now`
(for `1 ≤ k`). -/
def rateStateA (ip : GoStr) (now : ℚ) (k : Nat) : AbuseTracker :=
  ⟨[(ip, List.replicate k now)], [], [], 0, 0⟩

/-- Tracker state after the window is full and `j` violations were counted
(for `1 ≤ j ≤ 9`). -/
def rateStateB (ip : GoStr) (now : ℚ) (j : Nat) : AbuseTracker :=
  ⟨[(ip, List.replicate 10 now)], [], [(ip, j)], 0, j⟩

/-- Tracker state after the auto-block fired. -/
def rateStateBlocked (ip : GoStr) (now : ℚ) : AbuseTracker :=
  ⟨[(ip, List.replicate 10 now)], [(ip, now + config.BlockDuration)], [], 1, 10⟩

theorem checkRate_first (ip : GoStr) (now : ℚ) :
    NewAbuseTracker.CheckConnectionRate ip now = (true, rateStateA ip now 1) := by
  simp [AbuseTracker.CheckConnectionRate, NewAbuseTracker, mapFindD, mapFind, mapSet,
    config.MaxConnectionsPerMinute, rateStateA, List.replicate]

theorem checkRate_ok_step (ip : GoStr) (now : ℚ) (k : Nat) (hk : k < 10) :
    (rateStateA ip now k).CheckConnectionRate ip now
      = (true, rateStateA ip now (k + 1)) := by
  have hlen : ¬ ((List.replicate k now).length ≥ config.MaxConnectionsPerMinute) := by
    simpa [config.MaxConnectionsPerMinute] using hk
  simp only [AbuseTracker.CheckConnectionRate, rateStateA, mapFindD, mapFind_singleton,
    Option.getD_some, filter_replicate_window, if_neg hlen, mapSet_singleton]
  rw [← List.replicate_succ']

theorem runRate_phaseA (ip : GoStr) (now : ℚ) (m k : Nat) (hk1 : 1 ≤ k)
    (hkm : k + m ≤ 10) :
    runRate m (rateStateA ip now k) ip now
      = (List.replicate m true, rateStateA ip now (k + m)) := by
  induction m generalizing k with
  | zero => simp [runRate]
  | succ j ih =>
    simp only [runRate, checkRate_ok_step ip now k (by omega)]
    rw [ih (k + 1) (by omega) (by omega)]
    dsimp only
    have harith : k + 1 + j = k + (j + 1) := by omega
    rw [harith]
    simp [List.replicate_succ]

theorem checkRate_deny_first (ip : GoStr) (now : ℚ) :
    (rateStateA ip now 10).CheckConnectionRate ip now
      = (false, rateStateB ip now 1) := by
  simp only [AbuseTracker.CheckConnectionRate, rateStateA, rateStateB, mapFindD,
    mapFind_singleton, Option.getD_some, filter_replicate_window,
    List.length_replicate, mapFind_nil, Option.getD_none]
  rw [if_pos (by norm_num [config.MaxConnectionsPerMinute])]
  rw [if_neg (by norm_num [config.RateLimitViolationsMax])]
  simp [mapSet, List.filter]

theorem checkRate_deny_step (ip : GoStr) (now : ℚ) (j : Nat) (hj1 : 1 ≤ j)
    (hj : j + 1 < 10) :
    (rateStateB ip now j).CheckConnectionRate ip now
      = (false, rateStateB ip now (j + 1)) := by
  have hv : ¬ (j + 1 ≥ config.RateLimitViolationsMax) := by
    simp only [config.RateLimitViolationsMax]
    omega
  simp only [AbuseTracker.CheckConnectionRate, rateStateB, mapFindD, mapFind_singleton,
    Option.getD_some, filter_replicate_window, List.length_replicate]
  rw [if_pos (by norm_num [config.MaxConnectionsPerMinute]), if_neg hv,
    mapSet_singleton]

theorem checkRate_deny_block (ip : GoStr) (now : ℚ) :
    (rateStateB ip now 9).CheckConnectionRate ip now
      = (false, rateStateBlocked ip now) := by
  simp only [AbuseTracker.CheckConnectionRate, rateStateB, rateStateBlocked, mapFindD,
    mapFind_singleton, Option.getD_some, filter_replicate_window, List.length_replicate]
  rw [if_pos (by norm_num [config.MaxConnectionsPerMinute]),
    if_pos (by norm_num [config.RateLimitViolationsMax])]
  simp [mapSet, mapErase, List.filter]

theorem runRate_phaseB (ip : GoStr) (now : ℚ) (m j : Nat) (hj1 : 1 ≤ j)
    (hjm : j + m ≤ 9) :
    runRate m (rateStateB ip now j) ip now
      = (List.replicate m false, rateStateB ip now (j + m)) := by
  induction m generalizing j with
  | zero => simp [runRate]
  | succ i ih =>
    simp only [runRate, checkRate_deny_step ip now j hj1 (by omega)]
    rw [ih (j + 1) (by omega) (by omega)]
    dsimp only
    have harith : j + 1 + i = j + (i + 1) := by omega
    rw [harith]
    simp [List.replicate_succ]

/-- C4: from an empty window, ten calls at one instant pass and record the
connection; the next ten all deny, counting one violation each and bumping
`total_rate_limited`; the call on which the violation count reaches ten sets a
one-hour block, clears the violation entry and bumps `total_blocked`.  The
final conjunct shows the pruning of timestamps older than the 60-second
window. -/
theorem claim_C4_connection_rate (ip : GoStr) (now : ℚ) :
    (runRate 20 NewAbuseTracker ip now).1
        = List.replicate 10 true ++ List.replicate 10 false ∧
    (runRate 20 NewAbuseTracker ip now).2 = rateStateBlocked ip now ∧
    mapFind (runRate 20 NewAbuseTracker ip now).2.blockedIPs ip
        = some (now + config.BlockDuration) ∧
    mapFind (runRate 20 NewAbuseTracker ip now).2.violationCounts ip = none ∧
    (runRate 20 NewAbuseTracker ip now).2.totalRateLimited = 10 ∧
    (runRate 20 NewAbuseTracker ip now).2.totalBlocked = 1 ∧
    AbuseTracker.CheckConnectionRate ⟨[(ip, [now - 100, now - 30])], [], [], 0, 0⟩ ip now
        = (true, ⟨[(ip, [now - 30, now])], [], [], 0, 0⟩) := by
  have h1 : runRate 1 NewAbuseTracker ip now = ([true], rateStateA ip now 1) := by
    simp [runRate, checkRate_first]
  have h9 : runRate 9 (rateStateA ip now 1) ip now
      = (List.replicate 9 true, rateStateA ip now (1 + 9)) :=
    runRate_phaseA ip now 9 1 (by omega) (by omega)
  have hd : runRate 1 (rateStateA ip now (1 + 9)) ip now = ([false], rateStateB ip now 1) := by
    simp only [show 1 + 9 = 10 from rfl]
    simp [runRate, checkRate_deny_first]
  have h8 : runRate 8 (rateStateB ip now 1) ip now
      = (List.replicate 8 false, rateStateB ip now (1 + 8)) :=
    runRate_phaseB ip now 8 1 (by omega) (by omega)
  have hb : runRate 1 (rateStateB ip now (1 + 8)) ip now
      = ([false], rateStateBlocked ip now) := by
    simp only [show 1 + 8 = 9 from rfl]
    simp [runRate, checkRate_deny_block]
  have h9b : runRate 9 (rateStateB ip now 1) ip now
      = (List.replicate 8 false ++ [false], rateStateBlocked ip now) := by
    refine Eq.trans (runRate_add 8 1 (rateStateB ip now 1) ip now) ?_
    rw [h8]
    dsimp only
    rw [hb]
  have h10 : runRate 10 (rateStateA ip now (1 + 9)) ip now
      = ([false] ++ (List.replicate 8 false ++ [false]), rateStateBlocked ip now) := by
    refine Eq.trans (runRate_add 1 9 (rateStateA ip now (1 + 9)) ip now) ?_
    rw [hd]
    dsimp only
    rw [h9b]
  have h19 : runRate 19 (rateStateA ip now 1) ip now
      = (List.replicate 9 true ++ ([false] ++ (List.replicate 8 false ++ [false])),
          rateStateBlocked ip now) := by
    refine Eq.trans (runRate_add 9 10 (rateStateA ip now 1) ip now) ?_
    rw [h9]
    dsimp only
    rw [h10]
  have h20 : runRate 20 NewAbuseTracker ip now
      = (List.replicate 10 true ++ List.replicate 10 false, rateStateBlocked ip now) := by
    refine Eq.trans (runRate_add 1 19 NewAbuseTracker ip now) ?_
    rw [h1]
    dsimp only
    rw [h19]
    have hlist : [true] ++
        (List.replicate 9 true ++ ([false] ++ (List.replicate 8 false ++ [false])))
          = List.replicate 10 true ++ List.replicate 10 false := by decide
    rw [hlist]
  refine ⟨by rw [h20], by rw [h20], ?_, ?_, ?_, ?_, ?_⟩
  · rw [h20]
    exact mapFind_singleton ip (now + config.BlockDuration)
  · rw [h20]
    rfl
  · rw [h20]
    rfl
  · rw [h20]
    rfl
  · norm_num [AbuseTracker.CheckConnectionRate, mapFindD, mapFind_singleton, mapFind_nil,
      mapSet, mapErase, List.filter, config.ConnectionRateWindow,
      config.MaxConnectionsPerMinute, config.RateLimitViolationsMax]

/-- A tracker whose block map holds exactly one entry with expiry instant 1. -/
def trackerOneBlock : AbuseTracker :=
  ⟨[], [("9.8.7.6".data, 1)], [], 1, 0⟩

/-- C5 counterexample: at `now` equal to the stored expiry, `GetBlockExpiry`
returns the (non-zero) expiry even though no entry is strictly in the future
(the code rejects with `time.Now().After(expiry)`, which keeps the boundary
instant). -/
theorem claim_C5_counterexample :
    ¬ ((AbuseTracker.GetBlockExpiry trackerOneBlock ("9.8.7.6".data) 1 ≠ 0) ↔
        (∃ e, mapFind trackerOneBlock.blockedIPs ("9.8.7.6".data) = some e ∧ 1 < e)) := by
  intro h
  have hval : AbuseTracker.GetBlockExpiry trackerOneBlock ("9.8.7.6".data) 1 = 1 := by
    simp [AbuseTracker.GetBlockExpiry, trackerOneBlock, mapFind]
  have hne : AbuseTracker.GetBlockExpiry trackerOneBlock ("9.8.7.6".data) 1 ≠ 0 := by
    rw [hval]
    norm_num
  obtain ⟨e, hfind, hlt⟩ := h.mp hne
  have he : e = 1 := by
    have : mapFind trackerOneBlock.blockedIPs ("9.8.7.6".data) = some 1 := by
      simp [trackerOneBlock, mapFind]
    rw [this] at hfind
    exact (Option.some_inj.mp hfind).symm
  rw [he] at hlt
  exact lt_irrefl 1 hlt

/-- C5 amended: for a positive clock, `GetBlockExpiry(ip)` returns a non-zero
instant iff the block map holds an entry for `ip` whose expiry is at least
`now` (the code keeps the boundary instant `expiry = now`; only a strictly
past expiry reads as "not blocked"). -/
theorem claim_C5_amended (tr : AbuseTracker) (ip : GoStr) (now : ℚ)
    (hpos : 0 < now) :
    (AbuseTracker.GetBlockExpiry tr ip now ≠ 0) ↔
      (∃ e, mapFind tr.blockedIPs ip = some e ∧ now ≤ e) := by
  unfold AbuseTracker.GetBlockExpiry
  cases hfind : mapFind tr.blockedIPs ip with
  | none => simp
  | some e =>
    by_cases hlt : now > e
    · simp only [if_pos hlt, ne_eq, not_true_eq_false, false_iff, not_exists]
      intro x hx
      rw [Option.some_inj.mp hx.1] at hlt
      exact absurd hx.2 (not_le.mpr hlt)
    · simp only [if_neg hlt]
      have hle : now ≤ e := not_lt.mp hlt
      have hne : e ≠ 0 := by
        intro h0
        rw [h0] at hle
        exact absurd (lt_of_lt_of_le hpos hle) (lt_irrefl 0)
      simp only [ne_eq, hne, not_false_eq_true, true_iff]
      exact ⟨e, rfl, hle⟩

theorem claim_C5_amended_witness :
    (0 : ℚ) < 2 ∧
      ((AbuseTracker.GetBlockExpiry trackerOneBlock ("9.8.7.6".data) 2 ≠ 0) ↔
        (∃ e, mapFind trackerOneBlock.blockedIPs ("9.8.7.6".data) = some e ∧ 2 ≤ e)) :=
  ⟨by norm_num, claim_C5_amended trackerOneBlock ("9.8.7.6".data) 2 (by norm_num)⟩

/-! ### Subdomain mint and validation (internal/subdomain/subdomain.go) -/

namespace subdomain

/-- The 32 whitelisted adjectives. -/
def adjectives : List GoStr :=
  ["happy".data, "sunny".data, "swift".data, "calm".data, "bold".data,
   "bright".data, "cool".data, "warm".data,
   "quick".data, "clever".data, "brave".data, "gentle".data, "kind".data,
   "proud".data, "wise".data, "keen".data,
   "fresh".data, "crisp".data, "pure".data, "clear".data, "wild".data,
   "free".data, "silent".data, "quiet".data,
   "golden".data, "silver".data, "coral".data, "amber".data, "jade".data,
   "ruby".data, "pearl".data, "onyx".data]

/-- The 32 whitelisted nouns. -/
def nouns : List GoStr :=
  ["tiger".data, "eagle".data, "wolf".data, "bear".data, "hawk".data,
   "fox".data, "deer".data, "owl".data,
   "river".data, "mountain".data, "forest".data, "ocean".data, "meadow".data,
   "valley".data, "canyon".data, "island".data,
   "star".data, "moon".data, "cloud".data, "storm".data, "wind".data,
   "flame".data, "wave".data, "stone".data,
   "maple".data, "cedar".data, "pine".data, "oak".data, "willow".data,
   "birch".data, "aspen".data, "elm".data]

/-- Go's `strings.Split(s, "-")` specialised to the one-character separator. -/
def splitOnDash : GoStr → List GoStr
  | [] => [[]]
  | c :: rest =>
    let ps := splitOnDash rest
    if c = '-' then [] :: ps
    else
      match ps with
      | [] => [[c]]
      | p :: tl => (c :: p) :: tl

/-- The per-character test of the hex-suffix loop:
`(c >= '0' && c <= '9') || (c >= 'a' && c <= 'f')`. -/
def isHexLower (c : Char) : Bool :=
  (decide ('0' ≤ c) && decide (c ≤ '9')) || (decide ('a' ≤ c) && decide (c ≤ 'f'))

/-- Go's byte-length `len(s)` of a string under the char-list model. -/
def utf8Len (s : GoStr) : Nat := (s.map Char.utf8Size).sum

/-- Function `IsValid(s)`: exactly three dash-separated parts, whitelisted
adjective, whitelisted noun, and an 8-byte lowercase-hex suffix. -/
def IsValid (s : GoStr) : Bool :=
  match splitOnDash s with
  | [a, n, h] =>
    decide (a ∈ adjectives) && decide (n ∈ nouns) &&
      (utf8Len h == 8 && h.all isHexLower)
  | _ => false

/-- The lowercase-hex digit table of `encoding/hex`. -/
def hexDigitsTable : GoStr := "0123456789abcdef".data

/-- One byte of `hex.EncodeToString`: high nibble then low nibble. -/
def byteToHex (b : Nat) : GoStr :=
  [hexDigitsTable.getD (b / 16) 'x', hexDigitsTable.getD (b % 16) 'x']

/-- Function `Generate()` as a function of the six random bytes it draws:
`adjectives[b%32] ++ "-" ++ nouns[b%32] ++ "-" ++ hex(4 bytes)`. -/
def Generate (adjIdx nounIdx b0 b1 b2 b3 : Nat) : GoStr :=
  let adj := adjectives.getD (adjIdx % adjectives.length) []
  let noun := nouns.getD (nounIdx % nouns.length) []
  let hexSuffix := byteToHex b0 ++ byteToHex b1 ++ byteToHex b2 ++ byteToHex b3
  adj ++ '-' :: (noun ++ '-' :: hexSuffix)

theorem utf8Size_of_hexLower (c : Char) (hc : isHexLower c = true) :
    Char.utf8Size c = 1 := by
  have hval : c.val ≤ 0x7F := by
    simp only [isHexLower, Bool.or_eq_true, Bool.and_eq_true, decide_eq_true_eq] at hc
    rcases hc with ⟨_, h9⟩ | ⟨_, hf⟩
    · have h9v : c.val ≤ ('9' : Char).val := h9
      rw [UInt32.le_def, BitVec.le_def] at h9v ⊢
      have h57 : (('9' : Char).val.toBitVec).toNat = 57 := by decide
      have h127 : ((0x7F : UInt32).toBitVec).toNat = 127 := by decide
      omega
    · have hfv : c.val ≤ ('f' : Char).val := hf
      rw [UInt32.le_def, BitVec.le_def] at hfv ⊢
      have h102 : (('f' : Char).val.toBitVec).toNat = 102 := by decide
      have h127 : ((0x7F : UInt32).toBitVec).toNat = 127 := by decide
      omega
  unfold Char.utf8Size
  exact if_pos hval

theorem utf8Len_of_hex (h : GoStr) (hh : ∀ c ∈ h, isHexLower c = true) :
    utf8Len h = h.length := by
  induction h with
  | nil => rfl
  | cons c cs ih =>
    simp only [utf8Len, List.map_cons, List.sum_cons, List.length_cons] at ih ⊢
    rw [utf8Size_of_hexLower c (hh c (List.mem_cons_self c cs)),
      ih (fun x hx => hh x (List.mem_cons_of_mem c hx))]
    omega

theorem isValid_iff_parts (s : GoStr) :
    IsValid s = true ↔
      ∃ a n h, splitOnDash s = [a, n, h] ∧ a ∈ adjectives ∧ n ∈ nouns ∧
        h.length = 8 ∧ ∀ c ∈ h, isHexLower c = true := by
  unfold IsValid
  generalize hs : splitOnDash s = parts
  match parts with
  | [] => simp
  | [a] => simp
  | [a, n] => simp
  | [a, n, h] =>
    simp only [Bool.and_eq_true, decide_eq_true_eq, beq_iff_eq, List.all_eq_true,
      List.cons.injEq, and_true]
    constructor
    · rintro ⟨⟨ha, hn⟩, hlen, hhex⟩
      exact ⟨a, n, h, ⟨rfl, rfl, rfl⟩, ha, hn,
        by rw [← utf8Len_of_hex h hhex]; exact hlen, hhex⟩
    · rintro ⟨a', n', h', ⟨rfl, rfl, rfl⟩, ha, hn, hlen, hhex⟩
      exact ⟨⟨ha, hn⟩, by rw [utf8Len_of_hex _ hhex]; exact hlen, hhex⟩
  | a :: n :: h :: d :: rest =>
    simp

/-- C6: `IsValid` accepts exactly the strings that split on the dash into
three parts with a whitelisted adjective, a whitelisted noun and an 8-character
lowercase-hex suffix; every other shape is rejected. -/
theorem claim_C6_isValid_characterization (s : GoStr) :
    IsValid s = true ↔
      ∃ a n h, splitOnDash s = [a, n, h] ∧ a ∈ adjectives ∧ n ∈ nouns ∧
        h.length = 8 ∧ ∀ c ∈ h, isHexLower c = true :=
  isValid_iff_parts s

theorem splitOnDash_no_dash (z : GoStr) (hz : '-' ∉ z) : splitOnDash z = [z] := by
  induction z with
  | nil => rfl
  | cons c cs ih =>
    have hc : ¬ (c = '-') := fun he => hz (he ▸ List.mem_cons_self c cs)
    simp only [splitOnDash, if_neg hc]
    rw [ih (fun hm => hz (List.mem_cons_of_mem c hm))]

theorem splitOnDash_append (x z : GoStr) (hx : '-' ∉ x) :
    splitOnDash (x ++ '-' :: z) = x :: splitOnDash z := by
  induction x with
  | nil =>
    simp [splitOnDash]
  | cons c cs ih =>
    have hc : ¬ (c = '-') := fun he => hx (he ▸ List.mem_cons_self c cs)
    simp only [List.cons_append, splitOnDash, if_neg hc, List.append_eq]
    rw [ih (fun hm => hx (List.mem_cons_of_mem c hm))]

theorem getD_mem_of_lt {l : List GoStr} {i : Nat} (hi : i < l.length) (d : GoStr) :
    l.getD i d ∈ l := by
  rw [List.getD_eq_getElem?_getD, List.getElem?_eq_getElem hi]
  exact List.getElem_mem hi

theorem adjectives_no_dash : ∀ w ∈ adjectives, '-' ∉ w := by decide

theorem nouns_no_dash : ∀ w ∈ nouns, '-' ∉ w := by decide

theorem hexTable_hex : ∀ i, i < 16 → isHexLower (hexDigitsTable.getD i 'x') = true := by
  decide

theorem hexTable_no_dash : ∀ i, i < 16 → hexDigitsTable.getD i 'x' ≠ '-' := by
  decide

theorem byteToHex_hex (b : Nat) (hb : b < 256) :
    ∀ c ∈ byteToHex b, isHexLower c = true := by
  intro c hc
  have hdiv : b / 16 < 16 := Nat.div_lt_of_lt_mul (by omega)
  have hmod : b % 16 < 16 := Nat.mod_lt b (by omega)
  simp only [byteToHex, List.mem_cons, List.not_mem_nil, or_false] at hc
  rcases hc with rfl | rfl
  · exact hexTable_hex _ hdiv
  · exact hexTable_hex _ hmod

theorem byteToHex_no_dash (b : Nat) (hb : b < 256) : '-' ∉ byteToHex b := by
  have hdiv : b / 16 < 16 := Nat.div_lt_of_lt_mul (by omega)
  have hmod : b % 16 < 16 := Nat.mod_lt b (by omega)
  intro hm
  simp only [byteToHex, List.mem_cons, List.not_mem_nil, or_false] at hm
  rcases hm with he | he
  · exact hexTable_no_dash _ hdiv he.symm
  · exact hexTable_no_dash _ hmod he.symm

theorem byteToHex_length (b : Nat) : (byteToHex b).length = 2 := rfl

/-- C7: every output of `Generate()` (any adjective byte, noun byte, and four
hex bytes) is accepted by `IsValid`. -/
theorem claim_C7_generate_isValid (adjIdx nounIdx b0 b1 b2 b3 : Nat)
    (h0 : b0 < 256) (h1 : b1 < 256) (h2 : b2 < 256) (h3 : b3 < 256) :
    IsValid (Generate adjIdx nounIdx b0 b1 b2 b3) = true := by
  have hadjLen : adjectives.length = 32 := rfl
  have hnounLen : nouns.length = 32 := rfl
  have hadjMem : adjectives.getD (adjIdx % adjectives.length) [] ∈ adjectives :=
    getD_mem_of_lt (by rw [hadjLen]; exact Nat.mod_lt adjIdx (by omega)) []
  have hnounMem : nouns.getD (nounIdx % nouns.length) [] ∈ nouns :=
    getD_mem_of_lt (by rw [hnounLen]; exact Nat.mod_lt nounIdx (by omega)) []
  have hadjND : '-' ∉ adjectives.getD (adjIdx % adjectives.length) [] :=
    adjectives_no_dash _ hadjMem
  have hnounND : '-' ∉ nouns.getD (nounIdx % nouns.length) [] :=
    nouns_no_dash _ hnounMem
  have hhexAll : ∀ c ∈ byteToHex b0 ++ byteToHex b1 ++ byteToHex b2 ++ byteToHex b3,
      isHexLower c = true := by
    intro c hc
    simp only [List.mem_append] at hc
    rcases hc with ((hc | hc) | hc) | hc
    · exact byteToHex_hex b0 h0 c hc
    · exact byteToHex_hex b1 h1 c hc
    · exact byteToHex_hex b2 h2 c hc
    · exact byteToHex_hex b3 h3 c hc
  have hhexND : '-' ∉ byteToHex b0 ++ byteToHex b1 ++ byteToHex b2 ++ byteToHex b3 := by
    intro hm
    simp only [List.mem_append] at hm
    rcases hm with ((hm | hm) | hm) | hm
    · exact byteToHex_no_dash b0 h0 hm
    · exact byteToHex_no_dash b1 h1 hm
    · exact byteToHex_no_dash b2 h2 hm
    · exact byteToHex_no_dash b3 h3 hm
  have hhexLen : (byteToHex b0 ++ byteToHex b1 ++ byteToHex b2 ++ byteToHex b3).length = 8 := by
    simp [byteToHex_length]
  rw [isValid_iff_parts]
  refine ⟨adjectives.getD (adjIdx % adjectives.length) [],
    nouns.getD (nounIdx % nouns.length) [],
    byteToHex b0 ++ byteToHex b1 ++ byteToHex b2 ++ byteToHex b3,
    ?_, hadjMem, hnounMem, hhexLen, hhexAll⟩
  unfold Generate
  rw [splitOnDash_append _ _ hadjND, splitOnDash_append _ _ hnounND,
    splitOnDash_no_dash _ hhexND]

theorem claim_C7_generate_isValid_witness :
    IsValid (Generate 5 7 0 17 171 255) = true :=
  claim_C7_generate_isValid 5 7 0 17 171 255 (by norm_num) (by norm_num)
    (by norm_num) (by norm_num)

end subdomain

/-! ### Tunnel (internal/tunnel/tunnel.go) -/

/-- Externally observable side effects of tunnel and server operations. -/
inductive Effect where
  | closeHandle (h : Nat)
  | closeListener (l : Nat)
  deriving Repr, DecidableEq

/-- Tunnel state.  The listener and the SSH closer are opaque handles. -/
structure Tunnel where
  Subdomain : GoStr
  Listener : Nat
  CreatedAt : ℚ
  LastActive : ℚ
  BindAddr : GoStr
  BindPort : Nat
  ClientIP : GoStr
  rateLimiter : RateLimiter
  sshConn : Option Nat
  rateLimitHits : Nat
  deriving Repr, DecidableEq

/-- Constructor `tunnel.New(...)` at instant `now`. -/
def Tunnel.New (subdomain : GoStr) (listener : Nat) (bindAddr : GoStr)
    (bindPort : Nat) (clientIP : GoStr) (now : ℚ) : Tunnel :=
  { Subdomain := subdomain
    Listener := listener
    CreatedAt := now
    LastActive := now
    BindAddr := bindAddr
    BindPort := bindPort
    ClientIP := clientIP
    rateLimiter := NewRateLimiter config.RequestsPerSecond config.BurstSize now
    sshConn := none
    rateLimitHits := 0 }

/-- Method `Touch()`. -/
def Tunnel.Touch (t : Tunnel) (now : ℚ) : Tunnel :=
  { t with LastActive := now }

/-- Method `AllowRequest()`: delegates to the token bucket (which mutates). -/
def Tunnel.AllowRequest (t : Tunnel) (now : ℚ) : Bool × Tunnel :=
  let p := t.rateLimiter.Allow now
  (p.1, { t with rateLimiter := p.2 })

/-- Method `SetSSHConn(conn)`. -/
def Tunnel.SetSSHConn (t : Tunnel) (conn : Nat) : Tunnel :=
  { t with sshConn := some conn }

/-- Method `RecordRateLimitHit()`: increments the violation count and reports
whether it reached the kill threshold. -/
def Tunnel.RecordRateLimitHit (t : Tunnel) : Bool × Tunnel :=
  (decide (t.rateLimitHits + 1 ≥ config.RateLimitViolationsMax),
    { t with rateLimitHits := t.rateLimitHits + 1 })

/-- Method `CloseSSH()`: reads the handle under the lock and, when set, calls
its close.  Note the source does NOT clear `sshConn` afterwards. -/
def Tunnel.CloseSSH (t : Tunnel) : Tunnel × List Effect :=
  let conn := t.sshConn
  (t, match conn with
      | some h => [Effect.closeHandle h]
      | none => [])

/-- C2 as exercised at the failing input: set an SSH handle once, call
`CloseSSH` twice — the handle's close runs twice and the handle is still set,
contradicting the claimed nil-out-then-close-once behaviour (and the repo's own
`TestCloseSSH`, which asserts `sshConn` is nil after `CloseSSH`). -/
theorem claim_C2_closeSSH_double_close :
    (((Tunnel.New ("s".data) 1 ("127.0.0.1".data) 8080 ("1.2.3.4".data) 0).SetSSHConn
        7).CloseSSH).2 ++
      ((((Tunnel.New ("s".data) 1 ("127.0.0.1".data) 8080 ("1.2.3.4".data) 0).SetSSHConn
        7).CloseSSH).1.CloseSSH).2
      = [Effect.closeHandle 7, Effect.closeHandle 7] ∧
    (((Tunnel.New ("s".data) 1 ("127.0.0.1".data) 8080 ("1.2.3.4".data) 0).SetSSHConn
        7).CloseSSH).1.sshConn = some 7 := by
  constructor
  · rfl
  · rfl

/-! ### Server registry (internal/server/server.go) -/

/-- The four admission failures of `CheckAndReserveConnection`, in source
order. -/
inductive ReserveError where
  | blocked
  | rateLimited
  | perIPLimit
  | capacity
  deriving Repr, DecidableEq

/-- Server state: tunnel registry, per-IP reservation counts, per-IP SSH
handles, stats counters and the abuse tracker. -/
structure Server where
  tunnels : List (GoStr × Tunnel)
  ipConnections : List (GoStr × Int)
  sshConns : List (GoStr × List Nat)
  totalConnections : Nat
  totalRequests : Nat
  abuseTracker : AbuseTracker
  domain : GoStr
  deriving Repr, DecidableEq

/-- Constructor `server.New(...)`: empty maps, fresh tracker. -/
def Server.New (domain : GoStr) : Server :=
  ⟨[], [], [], 0, 0, NewAbuseTracker, domain⟩

/-- Method `CheckAndReserveConnection(clientIP)`: block check, rate check,
then — under the registry lock — per-IP cap, total-tunnel cap, and the per-IP
increment that reserves the slot. -/
def Server.CheckAndReserveConnection (s : Server) (clientIP : GoStr) (now : ℚ) :
    Except ReserveError Unit × Server :=
  if s.abuseTracker.GetBlockExpiry clientIP now ≠ 0 then
    (Except.error ReserveError.blocked, s)
  else
    let p := s.abuseTracker.CheckConnectionRate clientIP now
    let s1 : Server := { s with abuseTracker := p.2 }
    if ¬ p.1 then (Except.error ReserveError.rateLimited, s1)
    else if mapFindD s1.ipConnections clientIP 0 ≥ (config.MaxTunnelsPerIP : Int) then
      (Except.error ReserveError.perIPLimit, s1)
    else if s1.tunnels.length ≥ config.MaxTotalTunnels then
      (Except.error ReserveError.capacity, s1)
    else
      (Except.ok (), { s1 with
        ipConnections := mapSet s1.ipConnections clientIP
          (mapFindD s1.ipConnections clientIP 0 + 1) })

/-- Method `DecrementIPConnection(clientIP)`: decrement, deleting the entry
when the decremented value is zero or below. -/
def Server.DecrementIPConnection (s : Server) (clientIP : GoStr) : Server :=
  let v := mapFindD s.ipConnections clientIP 0 - 1
  if v ≤ 0 then { s with ipConnections := mapErase s.ipConnections clientIP }
  else { s with ipConnections := mapSet s.ipConnections clientIP v }

/-- Method `RegisterTunnel(sub, listener, bindAddr, bindPort, clientIP)`. -/
def Server.RegisterTunnel (s : Server) (sub : GoStr) (listener : Nat)
    (bindAddr : GoStr) (bindPort : Nat) (clientIP : GoStr) (now : ℚ) :
    Server × Tunnel :=
  let t := Tunnel.New sub listener bindAddr bindPort clientIP now
  ({ s with tunnels := mapSet s.tunnels sub t }, t)

/-- Method `RemoveTunnel(sub)`: close and delete when present. -/
def Server.RemoveTunnel (s : Server) (sub : GoStr) : Server × List Effect :=
  match mapFind s.tunnels sub with
  | some t => ({ s with tunnels := mapErase s.tunnels sub },
      [Effect.closeListener t.Listener])
  | none => (s, [])

/-- Method `GetTunnel(sub)`. -/
def Server.GetTunnel (s : Server) (sub : GoStr) : Option Tunnel :=
  mapFind s.tunnels sub

/-- Method `BlockIP(ip)`: delegates to the abuse tracker. -/
def Server.BlockIP (s : Server) (ip : GoStr) (now : ℚ) : Server :=
  { s with abuseTracker := s.abuseTracker.BlockIP ip now }

/-- The registry invariant of C10: every entry present in `ipConnections`
carries a count of at least one. -/
def IPInv (s : Server) : Prop :=
  ∀ p ∈ s.ipConnections, 1 ≤ p.2

theorem mem_of_mapFind_eq_some {K V : Type} [DecidableEq K]
    {m : List (K × V)} {k : K} {v : V} (h : mapFind m k = some v) : (k, v) ∈ m := by
  induction m with
  | nil => exact absurd h (by simp [mapFind])
  | cons p rest ih =>
    obtain ⟨pk, pv⟩ := p
    rw [mapFind] at h
    by_cases he : pk = k
    · rw [if_pos he] at h
      rw [← he, ← Option.some_inj.mp h]
      exact List.mem_cons_self _ _
    · rw [if_neg he] at h
      exact List.mem_cons_of_mem _ (ih h)

theorem mem_mapSet {K V : Type} [DecidableEq K]
    {m : List (K × V)} {k : K} {v : V} {q : K × V} (hq : q ∈ mapSet m k v) :
    q = (k, v) ∨ q ∈ m := by
  rcases List.mem_cons.mp hq with he | hf
  · exact Or.inl he
  · exact Or.inr (List.mem_of_mem_filter hf)

theorem mem_mapErase {K V : Type} [DecidableEq K]
    {m : List (K × V)} {k : K} {q : K × V} (hq : q ∈ mapErase m k) : q ∈ m :=
  List.mem_of_mem_filter hq

theorem mapFindD_nonneg_of_inv {m : List (GoStr × Int)} (hinv : ∀ p ∈ m, 1 ≤ p.2)
    (k : GoStr) : 0 ≤ mapFindD m k 0 := by
  unfold mapFindD
  cases hf : mapFind m k with
  | none => simp
  | some v =>
    simp only [Option.getD_some]
    exact le_trans (by norm_num) (hinv (k, v) (mem_of_mapFind_eq_some hf))

/-- C10: `CheckAndReserveConnection` is the only increment and stores at least
one; `DecrementIPConnection` deletes at zero or below; the remaining registry
operations leave `ipConnections` untouched — so every operation preserves the
invariant that present entries count at least one. -/
theorem claim_C10_ipConnections_at_least_one (s : Server) (hinv : IPInv s) :
    (∀ ip now, IPInv (s.CheckAndReserveConnection ip now).2) ∧
    (∀ ip, IPInv (s.DecrementIPConnection ip)) ∧
    (∀ sub listener bindAddr bindPort clientIP now,
      IPInv (s.RegisterTunnel sub listener bindAddr bindPort clientIP now).1) ∧
    (∀ sub, IPInv (s.RemoveTunnel sub).1) ∧
    (∀ ip now, IPInv (s.BlockIP ip now)) := by
  refine ⟨?_, ?_, ?_, ?_, ?_⟩
  · intro ip now
    unfold Server.CheckAndReserveConnection
    split
    · exact hinv
    · dsimp only
      split
      · exact hinv
      · split
        · exact hinv
        · split
          · exact hinv
          · intro q hq
            rcases mem_mapSet hq with rfl | hm
            · have := mapFindD_nonneg_of_inv hinv ip
              dsimp only
              omega
            · exact hinv q hm
  · intro ip
    unfold Server.DecrementIPConnection
    dsimp only
    split
    · intro q hq
      exact hinv q (mem_mapErase hq)
    · rename_i hgt
      intro q hq
      rcases mem_mapSet hq with rfl | hm
      · dsimp only
        omega
      · exact hinv q hm
  · intro sub listener bindAddr bindPort clientIP now
    exact hinv
  · intro sub
    unfold Server.RemoveTunnel
    cases hf : mapFind s.tunnels sub with
    | some t => exact hinv
    | none => exact hinv
  · intro ip now
    exact hinv

theorem claim_C10_ipConnections_at_least_one_witness :
    IPInv ((Server.New ("tunnl.gg".data)).DecrementIPConnection ("1.2.3.4".data)) :=
  (claim_C10_ipConnections_at_least_one (Server.New ("tunnl.gg".data))
    (fun p hp => absurd hp (List.not_mem_nil p))).2.1 ("1.2.3.4".data)

/-! ### Interleavings of reservations and registrations (claim C1)

Each event is one critical section taken by some SSH acceptor: a `reserve` is
one `CheckAndReserveConnection` call (its state change applied only when it
succeeds, exactly as in the source), a `register` is one `RegisterTunnel`
call.  Concurrency is modelled by the order of the events. -/

inductive Ev where
  | reserve (ip : GoStr)
  | register (sub : GoStr) (ip : GoStr)
  deriving Repr, DecidableEq

/-- Run a sequence of critical sections, failing if any reservation fails
(so a `some` result certifies that every reservation in the trace succeeded). -/
def execOk (now : ℚ) : List Ev → Server → Option Server
  | [], s => some s
  | Ev.reserve ip :: es, s =>
    match s.CheckAndReserveConnection ip now with
    | (Except.ok _, s1) => execOk now es s1
    | (Except.error _, _) => none
  | Ev.register sub ip :: es, s =>
    execOk now es (s.RegisterTunnel sub 0 [] 0 ip now).1

/-- Distinct IP strings. -/
def ipName (i : Nat) : GoStr := List.replicate i 'a'

/-- Distinct subdomain strings. -/
def subName (j : Nat) : GoStr := List.replicate j 'b'

theorem ipName_inj (i j : Nat) (h : ipName i = ipName j) : i = j := by
  have := congrArg List.length h
  simpa [ipName] using this

theorem subName_inj (i j : Nat) (h : subName i = subName j) : i = j := by
  have := congrArg List.length h
  simpa [subName] using this

theorem fresh_key_reverse_range {V : Type} (key : Nat → GoStr)
    (hkey : ∀ i j, key i = key j → i = j) (f : Nat → V) (k : Nat) :
    key k ∉ mapKeys (((List.range k).map (fun i => (key i, f i))).reverse) := by
  intro hm
  simp only [mapKeys, List.map_reverse, List.mem_reverse, List.map_map,
    List.mem_map, List.mem_range, Function.comp] at hm
  obtain ⟨i, hik, he⟩ := hm
  rw [hkey i k he] at hik
  exact Nat.lt_irrefl k hik

theorem range_reverse_map_succ {α : Type} (g : Nat → α) (k : Nat) :
    ((List.range (k + 1)).map g).reverse = g k :: ((List.range k).map g).reverse := by
  rw [List.range_succ, List.map_append]
  simp

/-- The server after `k` successful reservations (from `k` distinct fresh IPs,
all at instant `now`) with no registration performed yet. -/
def burstIPs (now : ℚ) (k : Nat) : Server :=
  { tunnels := []
    ipConnections := ((List.range k).map (fun i => (ipName i, 1))).reverse
    sshConns := []
    totalConnections := 0
    totalRequests := 0
    abuseTracker := ⟨((List.range k).map (fun i => (ipName i, [now]))).reverse, [], [], 0, 0⟩
    domain := "tunnl.gg".data }

theorem reserve_step (now : ℚ) (k : Nat) :
    (burstIPs now k).CheckAndReserveConnection (ipName k) now
      = (Except.ok (), burstIPs now (k + 1)) := by
  have hfreshT : mapFind (((List.range k).map (fun i => (ipName i, [now]))).reverse)
      (ipName k) = none :=
    mapFind_eq_none_of_fresh _ _ (fresh_key_reverse_range ipName ipName_inj _ k)
  have hfreshC : mapFind (((List.range k).map (fun i => (ipName i, (1 : Int)))).reverse)
      (ipName k) = none :=
    mapFind_eq_none_of_fresh _ _ (fresh_key_reverse_range ipName ipName_inj _ k)
  unfold Server.CheckAndReserveConnection
  rw [if_neg (by simp [burstIPs, AbuseTracker.GetBlockExpiry, mapFind])]
  have hrate : (burstIPs now k).abuseTracker.CheckConnectionRate (ipName k) now
      = (true, (burstIPs now (k + 1)).abuseTracker) := by
    simp only [burstIPs, AbuseTracker.CheckConnectionRate, mapFindD, hfreshT,
      Option.getD_none, List.filter_nil, List.length_nil, List.nil_append]
    rw [if_neg (by norm_num [config.MaxConnectionsPerMinute])]
    rw [mapSet_of_fresh _ _ _ (fresh_key_reverse_range ipName ipName_inj _ k)]
    rw [range_reverse_map_succ (fun i => (ipName i, [now])) k]
  rw [hrate]
  dsimp only
  rw [if_neg (by simp)]
  rw [if_neg (by simp [burstIPs, mapFindD, hfreshC, config.MaxTunnelsPerIP])]
  rw [if_neg (by simp [burstIPs, config.MaxTotalTunnels])]
  simp only [burstIPs, mapFindD, hfreshC, Option.getD_none]
  rw [mapSet_of_fresh _ _ _ (fresh_key_reverse_range ipName ipName_inj _ k)]
  rw [range_reverse_map_succ (fun i => (ipName i, (1 : Int))) k]
  norm_num

theorem exec_reserves (now : ℚ) (m k : Nat) :
    execOk now ((List.range' k m).map (fun i => Ev.reserve (ipName i)))
        (burstIPs now k)
      = some (burstIPs now (k + m)) := by
  induction m generalizing k with
  | zero => simp [execOk, List.range']
  | succ j ih =>
    rw [List.range'_succ, List.map_cons]
    simp only [execOk, reserve_step now k]
    rw [ih (k + 1)]
    have harith : k + 1 + j = k + (j + 1) := by omega
    rw [harith]

/-- The server after 1001 reservations and then `j` registrations. -/
def burstFull (now : ℚ) (j : Nat) : Server :=
  { tunnels := ((List.range j).map
      (fun i => (subName i, Tunnel.New (subName i) 0 [] 0 (ipName i) now))).reverse
    ipConnections := ((List.range 1001).map (fun i => (ipName i, 1))).reverse
    sshConns := []
    totalConnections := 0
    totalRequests := 0
    abuseTracker := ⟨((List.range 1001).map (fun i => (ipName i, [now]))).reverse, [], [], 0, 0⟩
    domain := "tunnl.gg".data }

theorem register_step (now : ℚ) (j : Nat) :
    ((burstFull now j).RegisterTunnel (subName j) 0 [] 0 (ipName j) now).1
      = burstFull now (j + 1) := by
  simp only [Server.RegisterTunnel, burstFull]
  rw [mapSet_of_fresh _ _ _
    (fresh_key_reverse_range subName subName_inj
      (fun i => Tunnel.New (subName i) 0 [] 0 (ipName i) now) j)]
  rw [range_reverse_map_succ
    (fun i => (subName i, Tunnel.New (subName i) 0 [] 0 (ipName i) now)) j]

theorem exec_registers (now : ℚ) (m j : Nat) :
    execOk now ((List.range' j m).map (fun i => Ev.register (subName i) (ipName i)))
        (burstFull now j)
      = some (burstFull now (j + m)) := by
  induction m generalizing j with
  | zero => simp [execOk, List.range']
  | succ i ih =>
    rw [List.range'_succ, List.map_cons]
    simp only [execOk, register_step now j]
    rw [ih (j + 1)]
    have harith : j + 1 + i = j + (i + 1) := by omega
    rw [harith]

theorem execOk_append (now : ℚ) (l1 l2 : List Ev) (s : Server) :
    execOk now (l1 ++ l2) s = (execOk now l1 s).bind (fun s1 => execOk now l2 s1) := by
  induction l1 generalizing s with
  | nil => simp [execOk]
  | cons e es ih =>
    cases e with
    | reserve ip =>
      simp only [List.cons_append, execOk]
      cases hr : s.CheckAndReserveConnection ip now with
      | mk r s1 =>
        cases r with
        | ok u => exact ih s1
        | error er => rfl
    | register sub ip =>
      simp only [List.cons_append, execOk]
      exact ih _

/-- The over-commit interleaving: 1001 successful reservations from 1001
distinct IPs, then the matching 1001 `RegisterTunnel` calls. -/
def overTrace : List Ev :=
  ((List.range' 0 1001).map (fun i => Ev.reserve (ipName i))) ++
    ((List.range' 0 1001).map (fun i => Ev.register (subName i) (ipName i)))

/-- C1 counterexample: an interleaving of successful reservations followed by
their `RegisterTunnel` calls drives the tunnel map to 1001 entries — above the
1000 cap — because a reservation only increments the per-IP count and the
capacity test sees an empty tunnel map during every reservation. -/
theorem claim_C1_counterexample :
    ∃ s, execOk 0 overTrace (Server.New ("tunnl.gg".data)) = some s ∧
      config.MaxTotalTunnels < s.tunnels.length := by
  refine ⟨burstFull 0 1001, ?_, ?_⟩
  · rw [overTrace, execOk_append]
    have hbase : Server.New ("tunnl.gg".data) = burstIPs 0 0 := rfl
    rw [hbase, exec_reserves 0 1001 0, Option.some_bind]
    have h01 : 0 + 1001 = 1001 := rfl
    rw [h01]
    have hmid : burstIPs 0 1001 = burstFull 0 0 := rfl
    rw [hmid, exec_registers 0 1001 0, h01]
  · simp [burstFull, config.MaxTotalTunnels]

theorem reserve_preserves_tunnels (s : Server) (ip : GoStr) (now : ℚ) :
    (s.CheckAndReserveConnection ip now).2.tunnels = s.tunnels := by
  unfold Server.CheckAndReserveConnection
  split
  · rfl
  · dsimp only
    split
    · rfl
    · split
      · rfl
      · split
        · rfl
        · rfl

theorem reserve_ok_capacity (s : Server) (ip : GoStr) (now : ℚ)
    (hok : (s.CheckAndReserveConnection ip now).1 = Except.ok ()) :
    s.tunnels.length < config.MaxTotalTunnels := by
  unfold Server.CheckAndReserveConnection at hok
  split at hok
  · exact absurd hok (by simp)
  · dsimp only at hok
    split at hok
    · exact absurd hok (by simp)
    · split at hok
      · exact absurd hok (by simp)
      · split at hok
        · exact absurd hok (by simp)
        · rename_i hcap
          exact not_le.mp hcap

theorem mapSet_length_le {K V : Type} [DecidableEq K]
    (m : List (K × V)) (k : K) (v : V) :
    (mapSet m k v).length ≤ m.length + 1 := by
  simp only [mapSet, List.length_cons, Nat.add_le_add_iff_right]
  exact List.length_filter_le _ _

/-- C1 amended: `CheckAndReserveConnection` does test the 1000-entry cap under
the lock, and a `RegisterTunnel` performed immediately after its own
successful reservation keeps the map at or below 1000; but the reservation
only increments the per-IP count, so overlapping reservations can exceed the
cap (the counterexample). -/
theorem claim_C1_amended (s : Server) (ip : GoStr) (now : ℚ) (sub : GoStr)
    (listener : Nat) (bindAddr : GoStr) (bindPort : Nat) (clientIP : GoStr)
    (hok : (s.CheckAndReserveConnection ip now).1 = Except.ok ()) :
    s.tunnels.length < config.MaxTotalTunnels ∧
    (((s.CheckAndReserveConnection ip now).2.RegisterTunnel sub listener bindAddr
        bindPort clientIP now).1.tunnels.length ≤ config.MaxTotalTunnels) := by
  have hlt := reserve_ok_capacity s ip now hok
  refine ⟨hlt, ?_⟩
  have hpres := reserve_preserves_tunnels s ip now
  simp only [Server.RegisterTunnel]
  rw [hpres]
  have hle := mapSet_length_le s.tunnels sub
    (Tunnel.New sub listener bindAddr bindPort clientIP now)
  omega

theorem claim_C1_amended_witness :
    ((Server.New ("tunnl.gg".data)).CheckAndReserveConnection ("1.2.3.4".data) 0).1
        = Except.ok () ∧
    ((((Server.New ("tunnl.gg".data)).CheckAndReserveConnection
        ("1.2.3.4".data) 0).2.RegisterTunnel ("happy-tiger-00000000".data) 0
        ("127.0.0.1".data) 8080 ("1.2.3.4".data) 0).1.tunnels.length
      ≤ config.MaxTotalTunnels) :=
  ⟨by rfl,
    (claim_C1_amended (Server.New ("tunnl.gg".data)) ("1.2.3.4".data) 0
      ("happy-tiger-00000000".data) 0 ("127.0.0.1".data) 8080 ("1.2.3.4".data)
      (by rfl)).2⟩

/-! ### HTTPS gateway (ServeHTTP of the https handler file) -/

/-- The request fields `ServeHTTP` inspects.  `bodyLen` is the number of bytes
the client actually streams (declared or chunked); `warningCookie` is the
result of the constant-time cookie comparison. -/
structure Request where
  contentLength : Int
  bodyLen : Nat
  host : GoStr
  userAgent : GoStr
  skipWarning : Bool
  warningCookie : Bool
  isWebSocket : Bool
  deriving Repr

/-- The responses `ServeHTTP` can produce, up to the depth the claims need.
`proxied` carries the result of draining the request body through the
`MaxBytesReader` wrapper. -/
inductive Response where
  | entityTooLarge
  | badRequest
  | notFound
  | tooManyRequests (retryAfter : GoStr)
  | tempRedirect
  | websocketHandled
  | proxied (bodyRead : Except Unit Nat)
  deriving Repr

/-- Helper `stripPort`: cut at the last colon, if any. -/
def stripPort (host : GoStr) : GoStr :=
  match host.reverse.dropWhile (fun c => c ≠ ':') with
  | [] => host
  | _ :: rest => rest.reverse

/-- Go's `strings.HasSuffix`. -/
def hasSuffix (s suffix : GoStr) : Bool := suffix.isSuffixOf s

/-- Go's `strings.TrimSuffix`. -/
def trimSuffix (s suffix : GoStr) : GoStr :=
  if suffix.isSuffixOf s then s.take (s.length - suffix.length) else s

/-- Go's `strings.Contains` on the char-list model. -/
def strContains : GoStr → GoStr → Bool
  | big, small =>
    if small.isPrefixOf big then true
    else
      match big with
      | [] => false
      | _ :: rest => strContains rest small

/-- Helper `isBrowserRequest`: the lower-cased User-Agent contains one of the
browser keywords. -/
def isBrowserRequest (r : Request) : Bool :=
  let ua := r.userAgent.map Char.toLower
  ["mozilla".data, "chrome".data, "safari".data, "firefox".data,
    "edge".data, "opera".data].any (fun kw => strContains ua kw)

/-- Draining a body of `bodyLen` bytes through `http.MaxBytesReader(w, body,
limit)`: succeeds iff no more than `limit` bytes arrive. -/
def readAllCapped (limit : Int) (bodyLen : Nat) : Except Unit Nat :=
  if (bodyLen : Int) ≤ limit then Except.ok bodyLen else Except.error ()

/-- Method `ServeHTTP(w, r)` of the HTTPS gateway: body-size guard and
`MaxBytesReader` wrap, host and subdomain validation, tunnel lookup, token
bucket admission with the violation/kill path, touch and counters, browser
interstitial, WebSocket dispatch, reverse proxy.  Returns the response, the
updated server, and the external effects (SSH closes). -/
def Server.ServeHTTP (s : Server) (r : Request) (now : ℚ) :
    Response × Server × List Effect :=
  if r.contentLength > config.MaxRequestBodySize then
    (Response.entityTooLarge, s, [])
  else
    let host := stripPort r.host
    if hasSuffix host ('.' :: s.domain) then
      let sub := trimSuffix host ('.' :: s.domain)
      if subdomain.IsValid sub then
        match s.GetTunnel sub with
        | none => (Response.notFound, s, [])
        | some tun =>
          let pa := tun.AllowRequest now
          if pa.1 then
            let tun1 := pa.2.Touch now
            let s1 := { s with tunnels := mapSet s.tunnels sub tun1
                               totalRequests := s.totalRequests + 1 }
            if isBrowserRequest r && !r.skipWarning && !r.warningCookie then
              (Response.tempRedirect, s1, [])
            else if r.isWebSocket then
              (Response.websocketHandled, s1, [])
            else
              (Response.proxied (readAllCapped config.MaxRequestBodySize r.bodyLen),
                s1, [])
          else
            let pk := pa.2.RecordRateLimitHit
            let s1 := { s with tunnels := mapSet s.tunnels sub pk.2 }
            if pk.1 then
              let s2 := s1.BlockIP pk.2.ClientIP now
              let pc := pk.2.CloseSSH
              (Response.tooManyRequests ("1".data),
                { s2 with tunnels := mapSet s2.tunnels sub pc.1 }, pc.2)
            else
              (Response.tooManyRequests ("1".data), s1, [])
      else (Response.badRequest, s, [])
    else (Response.badRequest, s, [])

theorem serveHTTP_413_only_guard (s : Server) (r : Request) (now : ℚ)
    (h : (s.ServeHTTP r now).1 = Response.entityTooLarge) :
    config.MaxRequestBodySize < r.contentLength := by
  unfold Server.ServeHTTP at h
  by_cases hg : r.contentLength > config.MaxRequestBodySize
  · exact hg
  · rw [if_neg hg] at h
    dsimp only at h
    split at h
    · split at h
      · split at h
        · exact absurd h (by simp)
        · rename_i tun
          split at h
          · split at h
            · exact absurd h (by simp)
            · split at h
              · exact absurd h (by simp)
              · exact absurd h (by simp)
          · split at h
            · exact absurd h (by simp)
            · exact absurd h (by simp)
      · exact absurd h (by simp)
    · exact absurd h (by simp)

theorem serveHTTP_proxied_body (s : Server) (r : Request) (now : ℚ)
    (b : Except Unit Nat) (h : (s.ServeHTTP r now).1 = Response.proxied b) :
    b = readAllCapped config.MaxRequestBodySize r.bodyLen := by
  unfold Server.ServeHTTP at h
  split at h
  · exact absurd h (by simp)
  · dsimp only at h
    split at h
    · split at h
      · split at h
        · exact absurd h (by simp)
        · rename_i tun
          split at h
          · split at h
            · exact absurd h (by simp)
            · split at h
              · exact absurd h (by simp)
              · simp only [Response.proxied.injEq] at h
                exact h.symm
          · split at h
            · exact absurd h (by simp)
            · exact absurd h (by simp)
      · exact absurd h (by simp)
    · exact absurd h (by simp)

/-- C9: a declared Content-Length strictly above 128 MiB is answered 413
immediately (state and effects untouched, nothing proxied); a declared length
of exactly 128 MiB passes the check (the gateway never answers 413 for it);
and the body is wrapped so that whenever the proxy path runs — in particular
for chunked requests with no declared length — a body exceeding 128 MiB fails
to read. -/
theorem claim_C9_request_body_cap :
    (∀ (s : Server) (r : Request) (now : ℚ),
      config.MaxRequestBodySize < r.contentLength →
        s.ServeHTTP r now = (Response.entityTooLarge, s, [])) ∧
    (∀ (s : Server) (r : Request) (now : ℚ),
      r.contentLength = config.MaxRequestBodySize →
        (s.ServeHTTP r now).1 ≠ Response.entityTooLarge) ∧
    (∀ (s : Server) (r : Request) (now : ℚ) (b : Except Unit Nat),
      (s.ServeHTTP r now).1 = Response.proxied b →
        config.MaxRequestBodySize < (r.bodyLen : Int) →
          b = Except.error ()) := by
  refine ⟨?_, ?_, ?_⟩
  · intro s r now hcl
    unfold Server.ServeHTTP
    rw [if_pos hcl]
  · intro s r now hcl h413
    have := serveHTTP_413_only_guard s r now h413
    rw [hcl] at this
    exact lt_irrefl _ this
  · intro s r now b hb hlen
    rw [serveHTTP_proxied_body s r now b hb]
    unfold readAllCapped
    rw [if_neg (not_le.mpr hlen)]

theorem claim_C9_request_body_cap_witness :
    config.MaxRequestBodySize < (config.MaxRequestBodySize + 1 : Int) ∧
    (Server.New ("tunnl.gg".data)).ServeHTTP
        ⟨config.MaxRequestBodySize + 1, 0, [], [], false, false, false⟩ 0
      = (Response.entityTooLarge, Server.New ("tunnl.gg".data), []) :=
  ⟨by omega,
    claim_C9_request_body_cap.1 (Server.New ("tunnl.gg".data))
      ⟨config.MaxRequestBodySize + 1, 0, [], [], false, false, false⟩ 0
      (by dsimp only; omega)⟩

/-! ### A concrete tunnel under rate-limit pressure (claim C8) -/

def gwSub : GoStr := "happy-tiger-00000000".data

def gwIP : GoStr := "9.9.9.9".data

/-- A registered tunnel whose token bucket is empty (all burst consumed at
instant 0), with `h` prior rate-limit hits and SSH handle 5 attached. -/
def gwTunnel (h : Nat) : Tunnel :=
  { Subdomain := gwSub
    Listener := 3
    CreatedAt := 0
    LastActive := 0
    BindAddr := "127.0.0.1".data
    BindPort := 80
    ClientIP := gwIP
    rateLimiter := ⟨0, 20, 10, 0⟩
    sshConn := some 5
    rateLimitHits := h }

def gwServer (h : Nat) : Server :=
  { tunnels := [(gwSub, gwTunnel h)]
    ipConnections := [(gwIP, 1)]
    sshConns := [(gwIP, [5])]
    totalConnections := 1
    totalRequests := 0
    abuseTracker := NewAbuseTracker
    domain := "tunnl.gg".data }

def gwReq : Request :=
  { contentLength := 0
    bodyLen := 0
    host := "happy-tiger-00000000.tunnl.gg".data
    userAgent := "curl/8.0".data
    skipWarning := false
    warningCookie := false
    isWebSocket := false }

/-- Server state after a denied request below the kill threshold: only the
tunnel's violation count moved. -/
def gwServerDenied (h : Nat) : Server :=
  { tunnels := [(gwSub, gwTunnel (h + 1))]
    ipConnections := [(gwIP, 1)]
    sshConns := [(gwIP, [5])]
    totalConnections := 1
    totalRequests := 0
    abuseTracker := NewAbuseTracker
    domain := "tunnl.gg".data }

/-- Server state when the denied request reached the kill threshold: creator
IP blocked for an hour on top of the violation count. -/
def gwServerKilled (h : Nat) : Server :=
  { tunnels := [(gwSub, gwTunnel (h + 1))]
    ipConnections := [(gwIP, 1)]
    sshConns := [(gwIP, [5])]
    totalConnections := 1
    totalRequests := 0
    abuseTracker := ⟨[], [(gwIP, 0 + config.BlockDuration)], [], 1, 0⟩
    domain := "tunnl.gg".data }

theorem gw_allow_denied (h : Nat) :
    (gwTunnel h).AllowRequest 0 = (false, gwTunnel h) := by
  unfold Tunnel.AllowRequest gwTunnel
  rw [allow_zero_elapsed_deny 0 20 10 0 (by norm_num) (by norm_num)]

theorem gw_eval (h : Nat) :
    (gwServer h).ServeHTTP gwReq 0 =
      if h + 1 ≥ config.RateLimitViolationsMax then
        (Response.tooManyRequests ("1".data), gwServerKilled h, [Effect.closeHandle 5])
      else
        (Response.tooManyRequests ("1".data), gwServerDenied h, []) := by
  unfold Server.ServeHTTP
  rw [if_neg (show ¬ (gwReq.contentLength > config.MaxRequestBodySize) by decide)]
  dsimp only
  rw [if_pos (show hasSuffix (stripPort gwReq.host) ('.' :: (gwServer h).domain)
    = true from rfl)]
  rw [if_pos (show subdomain.IsValid
    (trimSuffix (stripPort gwReq.host) ('.' :: (gwServer h).domain)) = true from rfl)]
  rw [show (gwServer h).GetTunnel
    (trimSuffix (stripPort gwReq.host) ('.' :: (gwServer h).domain))
    = some (gwTunnel h) from rfl]
  dsimp only
  rw [gw_allow_denied h]
  dsimp only
  rw [if_neg (show ¬ (false = true) by simp)]
  rw [show (gwTunnel h).RecordRateLimitHit
    = (decide (h + 1 ≥ config.RateLimitViolationsMax), gwTunnel (h + 1)) from rfl]
  dsimp only
  cases hdk : decide (h + 1 ≥ config.RateLimitViolationsMax) with
  | false =>
    rw [if_neg (show ¬ (false = true) by simp)]
    rw [if_neg (of_decide_eq_false hdk)]
    rfl
  | true =>
    rw [if_pos rfl, if_pos (of_decide_eq_true hdk)]
    rfl

/-- C8: with the tunnel's bucket empty, the gateway answers 429 with
`Retry-After: 1` and records exactly one violation; below the kill threshold
nothing else happens (no SSH close, no block), while on the call on which the
violation count reaches the threshold the owning SSH handle is closed and the
creator IP is blocked for one hour; and `RecordRateLimitHit` returns true
exactly when the incremented count reaches the threshold. -/
theorem claim_C8_rate_limit_kill (h : Nat) :
    ((gwServer h).ServeHTTP gwReq 0).1 = Response.tooManyRequests ("1".data) ∧
    (((gwServer h).ServeHTTP gwReq 0).2.1.GetTunnel gwSub).map Tunnel.rateLimitHits
        = some (h + 1) ∧
    (h + 1 < config.RateLimitViolationsMax →
      ((gwServer h).ServeHTTP gwReq 0).2.2 = [] ∧
      mapFind ((gwServer h).ServeHTTP gwReq 0).2.1.abuseTracker.blockedIPs gwIP
        = none) ∧
    (config.RateLimitViolationsMax ≤ h + 1 →
      ((gwServer h).ServeHTTP gwReq 0).2.2 = [Effect.closeHandle 5] ∧
      mapFind ((gwServer h).ServeHTTP gwReq 0).2.1.abuseTracker.blockedIPs gwIP
        = some (0 + config.BlockDuration)) ∧
    (∀ t : Tunnel,
      (t.RecordRateLimitHit).1 = true ↔
        config.RateLimitViolationsMax ≤ t.rateLimitHits + 1) := by
  rw [gw_eval h]
  by_cases hk : h + 1 ≥ config.RateLimitViolationsMax
  · rw [if_pos hk]
    refine ⟨rfl, rfl, ?_, ?_, ?_⟩
    · intro hlt
      omega
    · intro _
      exact ⟨rfl, rfl⟩
    · intro t
      simp [Tunnel.RecordRateLimitHit, ge_iff_le]
  · rw [if_neg hk]
    refine ⟨rfl, rfl, ?_, ?_, ?_⟩
    · intro _
      exact ⟨rfl, rfl⟩
    · intro hge
      exact absurd hge hk
    · intro t
      simp [Tunnel.RecordRateLimitHit, ge_iff_le]

theorem claim_C8_rate_limit_kill_witness :
    config.RateLimitViolationsMax ≤ 9 + 1 ∧
    ((gwServer 9).ServeHTTP gwReq 0).2.2 = [Effect.closeHandle 5] ∧
    mapFind ((gwServer 9).ServeHTTP gwReq 0).2.1.abuseTracker.blockedIPs gwIP
      = some (0 + config.BlockDuration) :=
  ⟨by norm_num [config.RateLimitViolationsMax],
    (claim_C8_rate_limit_kill 9).2.2.2.1
      (by norm_num [config.RateLimitViolationsMax])⟩

end Tunnl
